import Mathlib

-- Shallow embedding of the sonscape real-time vibroacoustic audio engine
-- (src/ws_audio.py, with scaled_amp shared verbatim by src/ws_audio_simple.py)
-- and proofs about the specified properties of its gain stage, mixer, fade
-- controller, envelope generators and sequencer.

/-- Embedding of apply_dual_strength (ws_audio.py lines 52-64) with the default
limits min_limit = 0, max_limit = 9.  The matrix value is clamped to [0, 9]; a
missing user value returns it unchanged; otherwise the user value is clamped to
[0, 9]; user 5 returns the matrix value; user below 5 scales by user/5 with a
lower clamp only; user above 5 scales by 1 + (user - 5)/5 with an upper clamp
only.  Python round is round-half-to-even, Mathlib round is round-half-up; the
argument m*u/5 with integer m, u can never be an exact half (2*m*u odd is
impossible), so the two agree on every reachable input. -/
def apply_dual_strength (matrix_val : ℤ) (user_val : Option ℤ) : ℤ :=
  let m := max 0 (min 9 matrix_val)
  match user_val with
  | none => m
  | some u0 =>
    let u := max 0 (min 9 u0)
    if u = 5 then m
    else if u < 5 then
      max 0 (round ((m : ℚ) * ((u : ℚ) / 5)))
    else
      min 9 (round ((m : ℚ) * (1 + ((u : ℚ) - 5) / 5)))

/-- Embedding of scaled_amp (ws_audio.py lines 66-76, and textually identical in
ws_audio_simple.py lines 73-83): clamp both steps to [0, 9]; base is
strength*10; trim 5 keeps base; trim below 5 subtracts (5 - trim)*(base/5);
trim above 5 adds (trim - 5)*((90 - base)/5); the returned gain is amp/90. -/
def scaled_amp (strength_step trim_step : ℤ) : ℚ :=
  let s := max 0 (min 9 strength_step)
  let t := max 0 (min 9 trim_step)
  let base : ℚ := (s : ℚ) * 10
  let amp : ℚ :=
    if t = 5 then base
    else if t < 5 then base - ((5 : ℚ) - (t : ℚ)) * (base / 5)
    else base + ((t : ℚ) - 5) * ((90 - base) / 5)
  amp / 90

lemma scaled_amp_of_bounds (s t : ℤ) (hs0 : 0 ≤ s) (hs9 : s ≤ 9)
    (ht0 : 0 ≤ t) (ht9 : t ≤ 9) :
    scaled_amp s t =
      (if t = 5 then (s : ℚ) * 10
       else if t < 5 then (s : ℚ) * 10 - ((5 : ℚ) - (t : ℚ)) * ((s : ℚ) * 10 / 5)
       else (s : ℚ) * 10 + ((t : ℚ) - 5) * ((90 - (s : ℚ) * 10) / 5)) / 90 := by
  have h1 : max 0 (min 9 s) = s := by omega
  have h2 : max 0 (min 9 t) = t := by omega
  simp only [scaled_amp, h1, h2]

lemma scaled_amp_closed_form (s t : ℤ) (hs0 : 0 ≤ s) (hs9 : s ≤ 9)
    (ht0 : 0 ≤ t) (ht9 : t ≤ 9) :
    scaled_amp s t =
      (if t ≤ 5 then (s : ℚ) * 10 * (t : ℚ) / 5
       else (s : ℚ) * 10 + ((t : ℚ) - 5) * ((90 - (s : ℚ) * 10) / 5)) / 90 := by
  rw [scaled_amp_of_bounds s t hs0 hs9 ht0 ht9]
  rcases lt_trichotomy t 5 with h | h | h
  · rw [if_neg (by omega), if_pos h, if_pos (by omega)]
    ring
  · have ht : (t : ℚ) = 5 := by exact_mod_cast congrArg (Int.cast : ℤ → ℚ) h
    rw [if_pos h, if_pos (by omega), ht]
    ring
  · rw [if_neg (by omega), if_neg (by omega), if_neg (by omega)]

/-- C8: scaled_amp is nondecreasing in the strength step for every fixed trim in
[0, 9], and nondecreasing in the trim step for every fixed strength at least 5
(and at most 9, the top of its range). -/
theorem scaled_amp_monotone :
    (∀ t m1 m2 : ℤ, 0 ≤ t → t ≤ 9 → 0 ≤ m1 → m1 ≤ m2 → m2 ≤ 9 →
      scaled_amp m1 t ≤ scaled_amp m2 t) ∧
    (∀ m t1 t2 : ℤ, 5 ≤ m → m ≤ 9 → 0 ≤ t1 → t1 ≤ t2 → t2 ≤ 9 →
      scaled_amp m t1 ≤ scaled_amp m t2) := by
  constructor
  · intro t m1 m2 ht0 ht9 hm1 hm12 hm29
    rw [scaled_amp_closed_form m1 t (by omega) (by omega) ht0 ht9,
        scaled_amp_closed_form m2 t (by omega) (by omega) ht0 ht9]
    have hm : (m1 : ℚ) ≤ (m2 : ℚ) := by exact_mod_cast hm12
    have ht0' : (0 : ℚ) ≤ (t : ℚ) := by exact_mod_cast ht0
    have ht9' : (t : ℚ) ≤ 9 := by exact_mod_cast ht9
    split_ifs with h
    · have := mul_nonneg (sub_nonneg.2 hm) ht0'
      nlinarith
    · have := mul_nonneg (sub_nonneg.2 hm) (by linarith : (0 : ℚ) ≤ 10 - (t : ℚ))
      nlinarith
  · intro m t1 t2 hm5 hm9 ht10 ht12 ht29
    rw [scaled_amp_closed_form m t1 (by omega) (by omega) (by omega) (by omega),
        scaled_amp_closed_form m t2 (by omega) (by omega) (by omega) (by omega)]
    have hmq0 : (0 : ℚ) ≤ (m : ℚ) := by exact_mod_cast (by omega : (0 : ℤ) ≤ m)
    have hmq9 : (m : ℚ) ≤ 9 := by exact_mod_cast hm9
    have htq : (t1 : ℚ) ≤ (t2 : ℚ) := by exact_mod_cast ht12
    have ht1q : (0 : ℚ) ≤ (t1 : ℚ) := by exact_mod_cast ht10
    have ht2q : (t2 : ℚ) ≤ 9 := by exact_mod_cast ht29
    split_ifs with h1 h2
    · have := mul_nonneg hmq0 (sub_nonneg.2 htq)
      nlinarith
    · have h2' : (5 : ℚ) < (t2 : ℚ) := by
        exact_mod_cast (by omega : (5 : ℤ) < t2)
      have h1' : (t1 : ℚ) ≤ 5 := by exact_mod_cast h1
      nlinarith [mul_nonneg hmq0 (by linarith : (0 : ℚ) ≤ 5 - (t1 : ℚ)),
        mul_nonneg (by linarith : (0 : ℚ) ≤ (t2 : ℚ) - 5)
          (by nlinarith : (0 : ℚ) ≤ 90 - (m : ℚ) * 10)]
    · omega
    · have h1' : (5 : ℚ) < (t1 : ℚ) := by
        exact_mod_cast (by omega : (5 : ℤ) < t1)
      nlinarith [mul_nonneg (sub_nonneg.2 htq)
        (by nlinarith : (0 : ℚ) ≤ 90 - (m : ℚ) * 10)]

/-- Witness for C8 at concrete inputs: strength 2 versus 7 at trim 3, and trim 2
versus 8 at strength 7. -/
theorem scaled_amp_monotone_witness :
    scaled_amp 2 3 ≤ scaled_amp 7 3 ∧ scaled_amp 7 2 ≤ scaled_amp 7 8 :=
  ⟨scaled_amp_monotone.1 3 2 7 (by norm_num) (by norm_num) (by norm_num)
      (by norm_num) (by norm_num),
   scaled_amp_monotone.2 7 2 8 (by norm_num) (by norm_num) (by norm_num)
      (by norm_num) (by norm_num)⟩

/-- C7: a user override that is unset or equal to 5 leaves the clamped baseline
unchanged: apply_dual_strength m (some 5) and apply_dual_strength m none both
equal clamp(m, 0, 9). -/
theorem apply_dual_fixed_point (m : ℤ) :
    apply_dual_strength m (some 5) = max 0 (min 9 m) ∧
    apply_dual_strength m none = max 0 (min 9 m) := by
  refine ⟨?_, rfl⟩
  show (if (max 0 (min 9 (5 : ℤ))) = 5 then max 0 (min 9 m)
        else if (max 0 (min 9 (5 : ℤ))) < 5 then
          max 0 (round ((max 0 (min 9 m) : ℚ) * (((max 0 (min 9 (5 : ℤ)) : ℤ) : ℚ) / 5)))
        else min 9 (round ((max 0 (min 9 m) : ℚ) *
          (1 + (((max 0 (min 9 (5 : ℤ)) : ℤ) : ℚ) - 5) / 5)))) = max 0 (min 9 m)
  norm_num

/-- C10: apply_dual_strength returns a value in [0, 9] for every integer matrix
value and every optional integer user value, even though the user-below-5
branch clamps only from below and the user-above-5 branch only from above. -/
theorem apply_dual_range (m : ℤ) (u : Option ℤ) :
    0 ≤ apply_dual_strength m u ∧ apply_dual_strength m u ≤ 9 := by
  cases u with
  | none =>
    exact ⟨by show (0 : ℤ) ≤ max 0 (min 9 m); omega,
           by show max 0 (min 9 m) ≤ 9; omega⟩
  | some u0 =>
    have hm0 : (0 : ℤ) ≤ max 0 (min 9 m) := by omega
    have hm9 : max 0 (min 9 m) ≤ 9 := by omega
    have hu0 : (0 : ℤ) ≤ max 0 (min 9 u0) := by omega
    have hu9 : max 0 (min 9 u0) ≤ 9 := by omega
    set mc := max 0 (min 9 m) with hmc
    set uc := max 0 (min 9 u0) with huc
    have hmq0 : (0 : ℚ) ≤ (mc : ℚ) := by exact_mod_cast hm0
    have hmq9 : (mc : ℚ) ≤ 9 := by exact_mod_cast hm9
    show 0 ≤ (if uc = 5 then mc
        else if uc < 5 then max 0 (round ((mc : ℚ) * ((uc : ℚ) / 5)))
        else min 9 (round ((mc : ℚ) * (1 + ((uc : ℚ) - 5) / 5)))) ∧
      (if uc = 5 then mc
        else if uc < 5 then max 0 (round ((mc : ℚ) * ((uc : ℚ) / 5)))
        else min 9 (round ((mc : ℚ) * (1 + ((uc : ℚ) - 5) / 5)))) ≤ 9
    split_ifs with h1 h2
    · exact ⟨hm0, hm9⟩
    · refine ⟨le_max_left _ _, ?_⟩
      have huq : (uc : ℚ) ≤ 4 := by exact_mod_cast (by omega : uc ≤ 4)
      have huq0 : (0 : ℚ) ≤ (uc : ℚ) := by exact_mod_cast hu0
      have harg : (mc : ℚ) * ((uc : ℚ) / 5) + 1 / 2 < 10 := by nlinarith
      have hr : round ((mc : ℚ) * ((uc : ℚ) / 5)) ≤ 9 := by
        rw [round_eq]
        have : ⌊(mc : ℚ) * ((uc : ℚ) / 5) + 1 / 2⌋ < 10 := Int.floor_lt.2 (by
          push_cast
          linarith)
        omega
      omega
    · refine ⟨?_, min_le_left _ _⟩
      have huq5 : (5 : ℚ) ≤ (uc : ℚ) := by exact_mod_cast (by omega : (5 : ℤ) ≤ uc)
      have harg : (0 : ℚ) ≤ (mc : ℚ) * (1 + ((uc : ℚ) - 5) / 5) := by nlinarith
      have hr : 0 ≤ round ((mc : ℚ) * (1 + ((uc : ℚ) - 5) / 5)) := by
        rw [round_eq]
        have : (0 : ℤ) ≤ ⌊(mc : ℚ) * (1 + ((uc : ℚ) - 5) / 5) + 1 / 2⌋ :=
          Int.le_floor.2 (by push_cast; linarith)
        omega
      omega

/-- Python int() truncation toward zero, on a rational value. -/
def pytruncQ (q : ℚ) : ℤ := if 0 ≤ q then ⌊q⌋ else ⌈q⌉

/-- One sample of the mix computed at the end of _generate_therapy_audio
(ws_audio.py lines 476-489): the aux block is built only when bt_gain is
positive, the mix is therapy * therapy_gain + aux * bt_gain, and the result is
clipped to [-1, 1]. -/
def mixedSample (therapy bt g_therapy g_music : ℚ) : ℚ :=
  let m := if 0 < g_music then therapy * g_therapy + bt * g_music
           else therapy * g_therapy
  max (-1) (min 1 m)

/-- The int16 conversion in _pure_audio_loop (ws_audio.py lines 1062-1063):
clip to [-1, 1], multiply by 32767 and cast with astype(np.int16), a C cast
that truncates toward zero. -/
def toInt16 (v : ℚ) : ℤ := pytruncQ (max (-1) (min 1 v) * 32767)

/-- Counterexample to C6 as stated: at the clamped sample value 1/2 the code
emits trunc(16383.5) = 16383 while round(16383.5) = 16384, so the int16
conversion is not round(v * 32767). -/
theorem mix_int16_not_round :
    ¬ toInt16 (mixedSample (1/2) 0 1 0) =
        round (mixedSample (1/2) 0 1 0 * 32767) := by
  have h1 : mixedSample (1/2) 0 1 0 = 1/2 := by norm_num [mixedSample]
  rw [h1]
  have h2 : toInt16 (1/2) = 16383 := by
    unfold toInt16 pytruncQ
    norm_num
  have h3 : round ((1/2 : ℚ) * 32767) = 16384 := by
    rw [round_eq]
    norm_num
  rw [h2, h3]
  decide

/-- C6 (amended): the mixed sample is the clamp of
therapy * g_therapy + aux * g_music to [-1, 1] whenever the installed music
gain is nonnegative (as every installed gain is); the int16 conversion is
truncation toward zero of v * 32767 (not rounding), and it always lies within
[-32767, 32767]. -/
theorem mix_clamp_and_int16 (t b gt gm v : ℚ) :
    (0 ≤ gm → mixedSample t b gt gm = max (-1) (min 1 (t * gt + b * gm))) ∧
    (-1 ≤ v → v ≤ 1 → toInt16 v = pytruncQ (v * 32767)) ∧
    (-32767 ≤ toInt16 v ∧ toInt16 v ≤ 32767) := by
  refine ⟨?_, ?_, ?_⟩
  · intro hgm
    unfold mixedSample
    rcases lt_or_eq_of_le hgm with h | h
    · rw [if_pos h]
    · rw [if_neg (by rw [← h]; exact lt_irrefl 0), ← h]
      ring_nf
  · intro h1 h2
    unfold toInt16
    rw [min_eq_right h2, max_eq_right h1]
  · unfold toInt16 pytruncQ
    have hub : max (-1 : ℚ) (min 1 v) ≤ 1 :=
      max_le (by norm_num) (min_le_left _ _)
    have hlb : (-1 : ℚ) ≤ max (-1) (min 1 v) := le_max_left _ _
    set w := max (-1 : ℚ) (min 1 v) with hw
    have hwu : w * 32767 ≤ 32767 := by nlinarith
    have hwl : (-32767 : ℚ) ≤ w * 32767 := by nlinarith
    split_ifs with h
    · constructor
      · have : (0 : ℤ) ≤ ⌊w * 32767⌋ := Int.le_floor.2 (by exact_mod_cast h)
        omega
      · have h1 := (Int.floor_le (w * 32767)).trans hwu
        exact_mod_cast h1
    · constructor
      · have h1 := hwl.trans (Int.le_ceil (w * 32767))
        exact_mod_cast h1
      · have : ⌈w * 32767⌉ ≤ 0 := Int.ceil_le.2 (by
          push_cast
          linarith [le_of_not_le h])
        omega

/-- Witness for C6 at a concrete mix: therapy 1/2 at gain 1, aux 1/4 at gain
1/2, and conversion of sample 1/2. -/
theorem mix_clamp_and_int16_witness :
    mixedSample (1/2) (1/4) 1 (1/2) = max (-1) (min 1 ((1/2) * 1 + (1/4) * (1/2))) ∧
    toInt16 (1/2) = pytruncQ ((1/2) * 32767) :=
  ⟨(mix_clamp_and_int16 (1/2) (1/4) 1 (1/2) 0).1 (by norm_num),
   (mix_clamp_and_int16 0 0 0 0 (1/2)).2.1 (by norm_num) (by norm_num)⟩

/-- The row fields consulted by sequence-load validation; rows arrive as JSON
dictionaries and the filter reads time and frequency with default 0. -/
structure RowV where
  time : ℚ
  frequency : ℚ
deriving DecidableEq

/-- The player fields written by play_sequence and _start_sequence_row. -/
structure SeqState where
  row : Option RowV
  sequence_rows : Option (List RowV)
  current_row_index : ℕ
  is_playing_sequence : Bool
deriving DecidableEq

/-- The validity test of play_sequence: time > 0 and frequency > 0. -/
def validRow (r : RowV) : Bool := decide (0 < r.time) && decide (0 < r.frequency)

/-- play_sequence (ws_audio.py lines 876-887) including the _start_sequence_row 0
call: rows failing validRow are filtered out; if nothing is left the call
returns with no state change; otherwise the filtered list is installed and its
first row started at index 0. -/
def play_sequence (s : SeqState) (rows : List RowV) : SeqState :=
  let valid_rows := rows.filter validRow
  match valid_rows with
  | [] => s
  | r :: _ =>
    { row := some r
      sequence_rows := some valid_rows
      current_row_index := 0
      is_playing_sequence := true }

/-- The play-all branch of handle_client (ws_audio.py lines 1164-1175): the
handler echoes a debug line, runs play_sequence when the row list is nonempty,
and unconditionally sends ack:play-all; no error message exists on this path. -/
def handlePlayAll (s : SeqState) (rows : List RowV) : SeqState × List String :=
  (if rows.isEmpty then s else play_sequence s rows,
   ["debug:action-received:play-all", "ack:play-all"])

/-- Counterexample to C3 as stated: a sequence whose single row has time 0 is
refused with no state change, but the client never receives
error:nothing-to-play; it receives the debug echo and ack:play-all. -/
theorem play_all_no_error_message :
    "error:nothing-to-play" ∉
        (handlePlayAll ⟨none, none, 0, false⟩ [⟨0, 40⟩]).2 ∧
      (handlePlayAll ⟨none, none, 0, false⟩ [⟨0, 40⟩]).1 =
        ⟨none, none, 0, false⟩ := by
  constructor
  · decide
  · decide

/-- C3 (amended): sequence load filters out every row with nonpositive time or
frequency (all installed rows satisfy both bounds strictly); when every row is
filtered out the player state is left unchanged; the client receives the debug
echo and ack:play-all, and no error:nothing-to-play message is ever sent. -/
theorem sequence_load_validation (s : SeqState) (rows : List RowV) :
    (rows.filter validRow = [] → play_sequence s rows = s) ∧
    (∀ r, r ∈ rows.filter validRow → 0 < r.time ∧ 0 < r.frequency) ∧
    (handlePlayAll s rows).2 = ["debug:action-received:play-all", "ack:play-all"] ∧
    "error:nothing-to-play" ∉ (handlePlayAll s rows).2 := by
  refine ⟨?_, ?_, rfl, ?_⟩
  · intro h
    unfold play_sequence
    rw [h]
  · intro r hr
    have h := List.of_mem_filter hr
    unfold validRow at h
    constructor
    · exact of_decide_eq_true (Bool.and_elim_left h)
    · exact of_decide_eq_true (Bool.and_elim_right h)
  · show "error:nothing-to-play" ∉
      (["debug:action-received:play-all", "ack:play-all"] : List String)
    decide

/-- Witness for C3: refusing the all-invalid list keeps the initial state, and
the row with time 2 and frequency 30 survives the filter with both fields
positive. -/
theorem sequence_load_validation_witness :
    play_sequence ⟨none, none, 0, false⟩ [⟨0, 40⟩] = ⟨none, none, 0, false⟩ ∧
    (0 < (⟨2, 30⟩ : RowV).time ∧ 0 < (⟨2, 30⟩ : RowV).frequency) :=
  ⟨(sequence_load_validation ⟨none, none, 0, false⟩ [⟨0, 40⟩]).1 (by decide),
   (sequence_load_validation ⟨none, none, 0, false⟩ [⟨2, 30⟩]).2.1 ⟨2, 30⟩
     (by decide)⟩

/-- FADE_SAMPLES = 4.0 s at 48000 Hz (ws_audio.py line 32). -/
def FADE_SAMPLES : ℤ := 192000

/-- The per-sample fade envelope produced by one _apply_fade call
(ws_audio.py lines 950-998) from fade state (direction d, samples remaining
rem, multiplier mult), at sample index k of a block of the given length.
When no fade is active (d = 0, rem <= 0) the signal is returned unchanged,
an envelope of 1.  With rem > 0 and stp = min(frames, rem): a fade-in fills
k < stp with (FADE_SAMPLES - rem + k)/FADE_SAMPLES and the rest with the
updated multiplier (1 on completion, else the last ramp value); a fade-out
fills k < stp with max(0, (rem - k)/FADE_SAMPLES) and the rest with the
updated multiplier (0 on completion).  Any other direction leaves the ones
envelope in place for k < stp and fills the tail with the multiplier. -/
def fadeEnv (d rem : ℤ) (mult : ℚ) (frames k : ℕ) : ℚ :=
  if d = 0 ∧ rem ≤ 0 then 1
  else if 0 < rem then
    if d = 1 then
      if (k : ℤ) < min (frames : ℤ) rem then
        ((FADE_SAMPLES - rem + (k : ℤ) : ℤ) : ℚ) / (FADE_SAMPLES : ℚ)
      else if rem - min (frames : ℤ) rem ≤ 0 then 1
      else ((FADE_SAMPLES - rem + (min (frames : ℤ) rem - 1) : ℤ) : ℚ) /
        (FADE_SAMPLES : ℚ)
    else if d = -1 then
      if (k : ℤ) < min (frames : ℤ) rem then
        max 0 (((rem - (k : ℤ) : ℤ) : ℚ) / (FADE_SAMPLES : ℚ))
      else if rem - min (frames : ℤ) rem ≤ 0 then 0
      else max 0 (((rem - (min (frames : ℤ) rem - 1) : ℤ) : ℚ) /
        (FADE_SAMPLES : ℚ))
    else if (k : ℤ) < min (frames : ℤ) rem then 1 else mult
  else mult

/-- The fade state (direction, samples remaining, multiplier) after one
_apply_fade call: rem is decremented by stp; on completion the direction
becomes 0 and the multiplier snaps to 1 (fade-in) or 0 (fade-out); otherwise
the multiplier holds the last ramp value of the block. -/
def fadeNext (d rem : ℤ) (mult : ℚ) (frames : ℕ) : ℤ × ℤ × ℚ :=
  if d = 0 ∧ rem ≤ 0 then (d, rem, mult)
  else if 0 < rem then
    (if rem - min (frames : ℤ) rem ≤ 0 then 0 else d,
     rem - min (frames : ℤ) rem,
     if d = 1 then
       if rem - min (frames : ℤ) rem ≤ 0 then 1
       else ((FADE_SAMPLES - rem + (min (frames : ℤ) rem - 1) : ℤ) : ℚ) /
         (FADE_SAMPLES : ℚ)
     else if d = -1 then
       if rem - min (frames : ℤ) rem ≤ 0 then 0
       else max 0 (((rem - (min (frames : ℤ) rem - 1) : ℤ) : ℚ) /
         (FADE_SAMPLES : ℚ))
     else mult)
  else (d, rem, mult)

lemma FS_posQ : (0 : ℚ) < (FADE_SAMPLES : ℚ) := by norm_num [FADE_SAMPLES]

lemma divFS_le_divFS {a b : ℤ} (h : a ≤ b) :
    ((a : ℚ)) / (FADE_SAMPLES : ℚ) ≤ ((b : ℚ)) / (FADE_SAMPLES : ℚ) := by
  exact (div_le_div_iff_of_pos_right FS_posQ).2 (by exact_mod_cast h)

lemma max0divFS_le {a b : ℤ} (h : a ≤ b) :
    max 0 (((a : ℚ)) / (FADE_SAMPLES : ℚ)) ≤
      max 0 (((b : ℚ)) / (FADE_SAMPLES : ℚ)) :=
  max_le_max le_rfl (divFS_le_divFS h)

lemma fadeEnv_in_lt {rem : ℤ} (mult : ℚ) {frames k : ℕ} (h0 : 0 < rem)
    (hk : (k : ℤ) < min (frames : ℤ) rem) :
    fadeEnv 1 rem mult frames k =
      ((FADE_SAMPLES - rem + (k : ℤ) : ℤ) : ℚ) / (FADE_SAMPLES : ℚ) := by
  unfold fadeEnv
  rw [if_neg (by rintro ⟨h, -⟩; exact one_ne_zero h), if_pos h0,
    if_pos rfl, if_pos hk]

lemma fadeEnv_in_done {rem : ℤ} (mult : ℚ) {frames k : ℕ} (h0 : 0 < rem)
    (hk : ¬ (k : ℤ) < min (frames : ℤ) rem)
    (hdone : rem - min (frames : ℤ) rem ≤ 0) :
    fadeEnv 1 rem mult frames k = 1 := by
  unfold fadeEnv
  rw [if_neg (by rintro ⟨h, -⟩; exact one_ne_zero h), if_pos h0,
    if_pos rfl, if_neg hk, if_pos hdone]

lemma fadeEnv_in_fill {rem : ℤ} (mult : ℚ) {frames k : ℕ} (h0 : 0 < rem)
    (hk : ¬ (k : ℤ) < min (frames : ℤ) rem)
    (hnd : ¬ rem - min (frames : ℤ) rem ≤ 0) :
    fadeEnv 1 rem mult frames k =
      ((FADE_SAMPLES - rem + (min (frames : ℤ) rem - 1) : ℤ) : ℚ) /
        (FADE_SAMPLES : ℚ) := by
  unfold fadeEnv
  rw [if_neg (by rintro ⟨h, -⟩; exact one_ne_zero h), if_pos h0,
    if_pos rfl, if_neg hk, if_neg hnd]

lemma fadeEnv_out_lt {rem : ℤ} (mult : ℚ) {frames k : ℕ} (h0 : 0 < rem)
    (hk : (k : ℤ) < min (frames : ℤ) rem) :
    fadeEnv (-1) rem mult frames k =
      max 0 (((rem - (k : ℤ) : ℤ) : ℚ) / (FADE_SAMPLES : ℚ)) := by
  unfold fadeEnv
  rw [if_neg (by rintro ⟨h, -⟩; norm_num at h), if_pos h0,
    if_neg (by norm_num), if_pos rfl, if_pos hk]

lemma fadeEnv_out_done {rem : ℤ} (mult : ℚ) {frames k : ℕ} (h0 : 0 < rem)
    (hk : ¬ (k : ℤ) < min (frames : ℤ) rem)
    (hdone : rem - min (frames : ℤ) rem ≤ 0) :
    fadeEnv (-1) rem mult frames k = 0 := by
  unfold fadeEnv
  rw [if_neg (by rintro ⟨h, -⟩; norm_num at h), if_pos h0,
    if_neg (by norm_num), if_pos rfl, if_neg hk, if_pos hdone]

lemma fadeEnv_out_fill {rem : ℤ} (mult : ℚ) {frames k : ℕ} (h0 : 0 < rem)
    (hk : ¬ (k : ℤ) < min (frames : ℤ) rem)
    (hnd : ¬ rem - min (frames : ℤ) rem ≤ 0) :
    fadeEnv (-1) rem mult frames k =
      max 0 (((rem - (min (frames : ℤ) rem - 1) : ℤ) : ℚ) /
        (FADE_SAMPLES : ℚ)) := by
  unfold fadeEnv
  rw [if_neg (by rintro ⟨h, -⟩; norm_num at h), if_pos h0,
    if_neg (by norm_num), if_pos rfl, if_neg hk, if_neg hnd]

lemma fadeEnv_idle (mult : ℚ) (frames k : ℕ) : fadeEnv 0 0 mult frames k = 1 := by
  unfold fadeEnv
  rw [if_pos ⟨rfl, le_refl 0⟩]

lemma fadeEnv_in_le_one {rem : ℤ} (mult : ℚ) {frames k : ℕ} (h0 : 0 < rem) :
    fadeEnv 1 rem mult frames k ≤ 1 := by
  have hone : (1 : ℚ) = ((FADE_SAMPLES : ℤ) : ℚ) / (FADE_SAMPLES : ℚ) :=
    (div_self (ne_of_gt FS_posQ)).symm
  rcases lt_or_le (k : ℤ) (min (frames : ℤ) rem) with hk | hk
  · rw [fadeEnv_in_lt mult h0 hk, hone]
    apply divFS_le_divFS
    omega
  · rcases le_or_lt (rem - min (frames : ℤ) rem) 0 with hdone | hnd
    · rw [fadeEnv_in_done mult h0 (not_lt.2 hk) hdone]
    · rw [fadeEnv_in_fill mult h0 (not_lt.2 hk) (not_le.2 hnd), hone]
      apply divFS_le_divFS
      omega

/-- C9 (amended): during a fade-in the per-sample envelope is nondecreasing
within each block and across consecutive blocks, and equals 0 at the first
sample after the fade-in starts; during a fade-out the envelope is
nonincreasing within each block and across consecutive blocks while the fade
is still running; the last sample inside the fade-out window equals
1/FADE_SAMPLES rather than 0; the stored multiplier is 0 once the fade-out
completes, and every sample of the completing block past the window is 0. -/
theorem fade_envelope_properties (rem : ℤ) (mult : ℚ) (frames frames2 j k : ℕ) :
    (0 < rem → j ≤ k → k < frames →
      fadeEnv 1 rem mult frames j ≤ fadeEnv 1 rem mult frames k) ∧
    (0 < frames → fadeEnv 1 FADE_SAMPLES mult frames 0 = 0) ∧
    (0 < rem → 0 < frames →
      fadeEnv 1 rem mult frames (frames - 1) ≤
        fadeEnv (fadeNext 1 rem mult frames).1 (fadeNext 1 rem mult frames).2.1
          (fadeNext 1 rem mult frames).2.2 frames2 0) ∧
    (0 < rem → j ≤ k → k < frames →
      fadeEnv (-1) rem mult frames k ≤ fadeEnv (-1) rem mult frames j) ∧
    ((frames : ℤ) < rem → 0 < frames →
      fadeEnv (fadeNext (-1) rem mult frames).1 (fadeNext (-1) rem mult frames).2.1
          (fadeNext (-1) rem mult frames).2.2 frames2 0 ≤
        fadeEnv (-1) rem mult frames (frames - 1)) ∧
    (0 < rem → rem ≤ (frames : ℤ) →
      fadeEnv (-1) rem mult frames (rem - 1).toNat = 1 / (FADE_SAMPLES : ℚ)) ∧
    (0 < rem → rem ≤ (frames : ℤ) → (fadeNext (-1) rem mult frames).2.2 = 0) ∧
    (0 < rem → rem ≤ (k : ℤ) → k < frames → fadeEnv (-1) rem mult frames k = 0) := by
  refine ⟨?_, ?_, ?_, ?_, ?_, ?_, ?_, ?_⟩
  · -- fade-in nondecreasing within a block
    intro h0 hjk hkf
    rcases lt_or_le (k : ℤ) (min (frames : ℤ) rem) with hk | hk
    · have hj : (j : ℤ) < min (frames : ℤ) rem := by omega
      rw [fadeEnv_in_lt mult h0 hj, fadeEnv_in_lt mult h0 hk]
      exact divFS_le_divFS (by omega)
    · rcases lt_or_le (j : ℤ) (min (frames : ℤ) rem) with hj | hj
      · rcases le_or_lt (rem - min (frames : ℤ) rem) 0 with hdone | hnd
        · rw [fadeEnv_in_done mult h0 (not_lt.2 hk) hdone]
          exact fadeEnv_in_le_one mult h0
        · rw [fadeEnv_in_lt mult h0 hj,
            fadeEnv_in_fill mult h0 (not_lt.2 hk) (not_le.2 hnd)]
          exact divFS_le_divFS (by omega)
      · rcases le_or_lt (rem - min (frames : ℤ) rem) 0 with hdone | hnd
        · rw [fadeEnv_in_done mult h0 (not_lt.2 hk) hdone,
            fadeEnv_in_done mult h0 (not_lt.2 hj) hdone]
        · rw [fadeEnv_in_fill mult h0 (not_lt.2 hk) (not_le.2 hnd),
            fadeEnv_in_fill mult h0 (not_lt.2 hj) (not_le.2 hnd)]
  · -- fade-in starts at envelope 0
    intro hf
    have h0 : (0 : ℤ) < FADE_SAMPLES := by norm_num [FADE_SAMPLES]
    have hk : ((0 : ℕ) : ℤ) < min (frames : ℤ) FADE_SAMPLES := by
      have : (0 : ℤ) < (frames : ℤ) := by exact_mod_cast hf
      push_cast
      exact lt_min this h0
    rw [fadeEnv_in_lt mult h0 hk]
    norm_num
  · -- fade-in nondecreasing across the block boundary
    intro h0 hf
    rcases le_or_lt rem (frames : ℤ) with hcase | hcase
    · have hstp : min (frames : ℤ) rem = rem := min_eq_right hcase
      have hnx : fadeNext 1 rem mult frames = (0, 0, 1) := by
        unfold fadeNext
        rw [if_neg (by rintro ⟨h, -⟩; exact one_ne_zero h), if_pos h0, hstp]
        norm_num
      rw [hnx]
      show fadeEnv 1 rem mult frames (frames - 1) ≤ fadeEnv 0 0 1 frames2 0
      rw [fadeEnv_idle]
      exact fadeEnv_in_le_one mult h0
    · have hstp : min (frames : ℤ) rem = (frames : ℤ) := min_eq_left (le_of_lt hcase)
      have hnd : ¬ rem - (frames : ℤ) ≤ 0 := by omega
      have hnx : fadeNext 1 rem mult frames =
          (1, rem - (frames : ℤ),
           ((FADE_SAMPLES - rem + ((frames : ℤ) - 1) : ℤ) : ℚ) / (FADE_SAMPLES : ℚ)) := by
        unfold fadeNext
        rw [if_neg (by rintro ⟨h, -⟩; exact one_ne_zero h), if_pos h0, hstp]
        norm_num [hnd]
      have hklast : ((frames - 1 : ℕ) : ℤ) < min (frames : ℤ) rem := by
        rw [hstp]; omega
      rw [hnx]
      show fadeEnv 1 rem mult frames (frames - 1) ≤
        fadeEnv 1 (rem - (frames : ℤ))
          (((FADE_SAMPLES - rem + ((frames : ℤ) - 1) : ℤ) : ℚ) / (FADE_SAMPLES : ℚ))
          frames2 0
      rw [fadeEnv_in_lt mult h0 hklast]
      have h0' : (0 : ℤ) < rem - (frames : ℤ) := by omega
      rcases Nat.eq_zero_or_pos frames2 with h2 | h2
      · subst h2
        have hstp' : min ((0 : ℕ) : ℤ) (rem - (frames : ℤ)) = 0 := by
          simp
          omega
        rw [fadeEnv_in_fill _ h0' (by rw [hstp']; omega) (by rw [hstp']; omega)]
        rw [hstp']
        exact divFS_le_divFS (by omega)
      · have hk0 : ((0 : ℕ) : ℤ) < min (frames2 : ℤ) (rem - (frames : ℤ)) := by
          have : (0 : ℤ) < (frames2 : ℤ) := by exact_mod_cast h2
          push_cast
          exact lt_min this h0'
        rw [fadeEnv_in_lt _ h0' hk0]
        exact divFS_le_divFS (by omega)
  · -- fade-out nonincreasing within a block
    intro h0 hjk hkf
    rcases lt_or_le (k : ℤ) (min (frames : ℤ) rem) with hk | hk
    · have hj : (j : ℤ) < min (frames : ℤ) rem := by omega
      rw [fadeEnv_out_lt mult h0 hj, fadeEnv_out_lt mult h0 hk]
      exact max0divFS_le (by omega)
    · rcases lt_or_le (j : ℤ) (min (frames : ℤ) rem) with hj | hj
      · rcases le_or_lt (rem - min (frames : ℤ) rem) 0 with hdone | hnd
        · rw [fadeEnv_out_done mult h0 (not_lt.2 hk) hdone,
            fadeEnv_out_lt mult h0 hj]
          exact le_max_left _ _
        · rw [fadeEnv_out_lt mult h0 hj,
            fadeEnv_out_fill mult h0 (not_lt.2 hk) (not_le.2 hnd)]
          exact max0divFS_le (by omega)
      · rcases le_or_lt (rem - min (frames : ℤ) rem) 0 with hdone | hnd
        · rw [fadeEnv_out_done mult h0 (not_lt.2 hk) hdone,
            fadeEnv_out_done mult h0 (not_lt.2 hj) hdone]
        · rw [fadeEnv_out_fill mult h0 (not_lt.2 hk) (not_le.2 hnd),
            fadeEnv_out_fill mult h0 (not_lt.2 hj) (not_le.2 hnd)]
  · -- fade-out nonincreasing across the block boundary while still fading
    intro hcase hf
    have h0 : (0 : ℤ) < rem := by omega
    have hstp : min (frames : ℤ) rem = (frames : ℤ) := min_eq_left (le_of_lt hcase)
    have hnd : ¬ rem - (frames : ℤ) ≤ 0 := by omega
    have hnx : fadeNext (-1) rem mult frames =
        (-1, rem - (frames : ℤ),
         max 0 (((rem - ((frames : ℤ) - 1) : ℤ) : ℚ) / (FADE_SAMPLES : ℚ))) := by
      unfold fadeNext
      rw [if_neg (by rintro ⟨h, -⟩; norm_num at h), if_pos h0, hstp]
      norm_num [hnd]
    have hklast : ((frames - 1 : ℕ) : ℤ) < min (frames : ℤ) rem := by
      rw [hstp]; omega
    rw [hnx]
    show fadeEnv (-1) (rem - (frames : ℤ))
        (max 0 (((rem - ((frames : ℤ) - 1) : ℤ) : ℚ) / (FADE_SAMPLES : ℚ)))
        frames2 0 ≤ fadeEnv (-1) rem mult frames (frames - 1)
    rw [fadeEnv_out_lt mult h0 hklast]
    have h0' : (0 : ℤ) < rem - (frames : ℤ) := by omega
    rcases Nat.eq_zero_or_pos frames2 with h2 | h2
    · subst h2
      have hstp' : min ((0 : ℕ) : ℤ) (rem - (frames : ℤ)) = 0 := by
        simp
        omega
      rw [fadeEnv_out_fill _ h0' (by rw [hstp']; omega) (by rw [hstp']; omega)]
      rw [hstp']
      exact max0divFS_le (by omega)
    · have hk0 : ((0 : ℕ) : ℤ) < min (frames2 : ℤ) (rem - (frames : ℤ)) := by
        have : (0 : ℤ) < (frames2 : ℤ) := by exact_mod_cast h2
        push_cast
        exact lt_min this h0'
      rw [fadeEnv_out_lt _ h0' hk0]
      exact max0divFS_le (by omega)
  · -- the last sample inside the fade-out window is 1/FADE_SAMPLES
    intro h0 hrf
    have hstp : min (frames : ℤ) rem = rem := min_eq_right hrf
    have hkc : (((rem - 1).toNat : ℕ) : ℤ) = rem - 1 := Int.toNat_of_nonneg (by omega)
    have hk : (((rem - 1).toNat : ℕ) : ℤ) < min (frames : ℤ) rem := by
      rw [hkc, hstp]; omega
    rw [fadeEnv_out_lt mult h0 hk, hkc]
    have h1 : (rem - (rem - 1) : ℤ) = 1 := by omega
    rw [h1]
    push_cast
    rw [max_eq_right (le_of_lt (div_pos one_pos FS_posQ))]
  · -- the stored multiplier is 0 once the fade-out completes
    intro h0 hrf
    have hstp : min (frames : ℤ) rem = rem := min_eq_right hrf
    have hnx : fadeNext (-1) rem mult frames = (0, 0, 0) := by
      unfold fadeNext
      rw [if_neg (by rintro ⟨h, -⟩; norm_num at h), if_pos h0, hstp]
      norm_num
    rw [hnx]
  · -- samples past the fade-out window in the completing block are 0
    intro h0 hrk hkf
    have hstp : min (frames : ℤ) rem = rem := min_eq_right (by omega)
    exact fadeEnv_out_done mult h0 (by rw [hstp]; omega) (by rw [hstp]; omega)

/-- Witness for C9 at concrete fade states: a fade-in at its very start over an
8-sample block (samples 0 and 3 compared, and the zero first sample), and the
final block of a fade-out with 1200 samples remaining. -/
theorem fade_envelope_properties_witness :
    fadeEnv 1 192000 0 8 0 ≤ fadeEnv 1 192000 0 8 3 ∧
    fadeEnv 1 FADE_SAMPLES 0 8 0 = 0 ∧
    fadeEnv (-1) 1200 0 1200 1199 = 1 / (FADE_SAMPLES : ℚ) ∧
    (fadeNext (-1) 1200 0 1200).2.2 = 0 :=
  ⟨(fade_envelope_properties 192000 0 8 8 0 3).1 (by norm_num) (by norm_num)
      (by norm_num),
   (fade_envelope_properties FADE_SAMPLES 0 8 8 0 3).2.1 (by norm_num),
   by
     have h := (fade_envelope_properties 1200 0 1200 1200 0 0).2.2.2.2.2.1
       (by norm_num) (by norm_num)
     simpa using h,
   (fade_envelope_properties 1200 0 1200 1200 0 0).2.2.2.2.2.2.1 (by norm_num)
     (by norm_num)⟩

/-- Counterexample to C9 as stated: in the final block of a fade-out (1200
samples remaining over a 1200-frame block) the last sample inside the fade-out
window is 1/192000, not 0. -/
theorem fade_out_last_sample_not_zero :
    ¬ fadeEnv (-1) 1200 0 1200 1199 = 0 := by
  have hk : ((1199 : ℕ) : ℤ) < min ((1200 : ℕ) : ℤ) (1200 : ℤ) := by norm_num
  rw [fadeEnv_out_lt 0 (by norm_num) hk]
  rw [show ((1200 : ℤ) - ((1199 : ℕ) : ℤ)) = 1 by norm_num]
  rw [max_eq_right (le_of_lt (div_pos (by norm_num) FS_posQ))]
  intro h
  rw [div_eq_zero_iff] at h
  rcases h with h | h
  · norm_num at h
  · rw [FADE_SAMPLES] at h
    norm_num at h

/-- Python float modulo a % b for positive b: a - b * floor(a/b). -/
noncomputable def pymod (a b : ℝ) : ℝ := a - b * (⌊a / b⌋ : ℝ)

/-- Python int() truncation toward zero on a real value. -/
noncomputable def pytrunc (x : ℝ) : ℤ := if 0 ≤ x then ⌊x⌋ else ⌈x⌉

/-- The slider-to-modulator-frequency map (ws_audio.py lines 360-362):
f_m = 0.03 * (10/0.03) ^ ((step - 1)/99), real exponentiation. -/
noncomputable def modFreq (step : ℝ) : ℝ :=
  0.03 * (10 / 0.03) ^ ((step - 1) / 99)

/-- One carrier sample in the constant-frequency branch of
_generate_4_channel_audio (ws_audio.py lines 1016-1020): sample k of the block
is sin(phase_accum + k * inc) with inc the per-sample phase increment. -/
noncomputable def carrierSampleConst (phi0 inc : ℝ) (k : ℕ) : ℝ :=
  Real.sin (phi0 + (k : ℝ) * inc)

/-- The carrier phase accumulator after a constant-frequency block
(ws_audio.py lines 1031-1032): (phi0 + frames * inc) reduced mod 2*pi. -/
noncomputable def carrierAccumNextConst (phi0 inc : ℝ) (frames : ℕ) : ℝ :=
  pymod (phi0 + (frames : ℝ) * inc) (2 * Real.pi)

/-- One carrier sample in the sweep branch (ws_audio.py lines 1013-1015,
1020): sample k is sin(phase_accum + cumulative sum of the per-sample
increments up to and including index k). -/
noncomputable def carrierSampleSweep (phi0 : ℝ) (inc : ℕ → ℝ) (k : ℕ) : ℝ :=
  Real.sin (phi0 + ∑ j ∈ Finset.range (k + 1), inc j)

/-- The carrier phase accumulator after a sweep block (ws_audio.py lines
1027-1029, 1032): phi0 plus the sum of all increments, reduced mod 2*pi. -/
noncomputable def carrierAccumNextSweep (phi0 : ℝ) (inc : ℕ → ℝ) (frames : ℕ) : ℝ :=
  pymod (phi0 + ∑ j ∈ Finset.range frames, inc j) (2 * Real.pi)

/-- One sample of the sine-LFO amplitude envelope (ws_audio.py lines 433-446):
(sin(phi0 + w * dt * k + offset) + 1) * 0.5 at sample k. -/
noncomputable def sineModSample (phi0 w dt off : ℝ) (k : ℕ) : ℝ :=
  (Real.sin (phi0 + w * dt * (k : ℝ) + off) + 1) * 0.5

/-- The sine-LFO phase accumulator after a block (ws_audio.py line 448):
(phi0 + w * dt * frames) reduced mod 2*pi. -/
noncomputable def sineModAccumNext (phi0 w dt : ℝ) (frames : ℕ) : ℝ :=
  pymod (phi0 + w * dt * (frames : ℝ)) (2 * Real.pi)

lemma sin_pymod_add (x c : ℝ) :
    Real.sin (pymod x (2 * Real.pi) + c) = Real.sin (x + c) := by
  unfold pymod
  have h : x - 2 * Real.pi * ((⌊x / (2 * Real.pi)⌋ : ℤ) : ℝ) + c
      = (x + c) + ((-⌊x / (2 * Real.pi)⌋ : ℤ) : ℝ) * (2 * Real.pi) := by
    push_cast
    ring
  rw [h, Real.sin_add_int_mul_two_pi]

/-- C2 (amended): across every block boundary the carrier continues exactly
(the difference from the value predicted by the end-of-block phase state is 0,
hence below 1e-5) in both the constant-frequency and the sweep branch, and so
does the sine-LFO modulation envelope of modes 0-7 for every output phase
offset.  (The drum and heartbeat envelopes of modes 8-10 do not satisfy this:
see the counterexample, which exhibits the heartbeat discontinuity.) -/
theorem phase_continuity (phi0 w dt off incNext : ℝ) (inc inc2 : ℕ → ℝ)
    (frames : ℕ) :
    |carrierSampleConst (carrierAccumNextConst phi0 incNext frames) incNext 0 -
        Real.sin (phi0 + (frames : ℝ) * incNext)| < 1/100000 ∧
    |carrierSampleSweep (carrierAccumNextSweep phi0 inc frames) inc2 0 -
        Real.sin ((phi0 + ∑ j ∈ Finset.range frames, inc j) + inc2 0)| < 1/100000 ∧
    |sineModSample (sineModAccumNext phi0 w dt frames) w dt off 0 -
        sineModSample phi0 w dt off frames| < 1/100000 := by
  refine ⟨?_, ?_, ?_⟩
  · have h : carrierSampleConst (carrierAccumNextConst phi0 incNext frames)
        incNext 0 = Real.sin (phi0 + (frames : ℝ) * incNext) := by
      unfold carrierSampleConst carrierAccumNextConst
      rw [Nat.cast_zero, zero_mul, add_zero]
      have := sin_pymod_add (phi0 + (frames : ℝ) * incNext) 0
      simpa using this
    rw [h, sub_self, abs_zero]
    norm_num
  · have h : carrierSampleSweep (carrierAccumNextSweep phi0 inc frames) inc2 0 =
        Real.sin ((phi0 + ∑ j ∈ Finset.range frames, inc j) + inc2 0) := by
      unfold carrierSampleSweep carrierAccumNextSweep
      rw [Finset.range_one, Finset.sum_singleton]
      exact sin_pymod_add (phi0 + ∑ j ∈ Finset.range frames, inc j) (inc2 0)
    rw [h, sub_self, abs_zero]
    norm_num
  · have h : sineModSample (sineModAccumNext phi0 w dt frames) w dt off 0 =
        sineModSample phi0 w dt off frames := by
      unfold sineModSample sineModAccumNext
      rw [Nat.cast_zero, mul_zero, add_zero]
      rw [sin_pymod_add (phi0 + w * dt * (frames : ℝ)) off]
    rw [h, sub_self, abs_zero]
    norm_num

/-- The heartbeat BPM computed at ws_audio.py line 423: int(mod_freq * 60),
Python int() truncation. -/
noncomputable def heartbeatBpm (mf : ℝ) : ℤ := pytrunc (mf * 60)

/-- One sample of the heartbeat envelope (_generate_heartbeat_env, ws_audio.py
lines 208-220, called with ratio 0.25 at line 424): block-local time
t = i/48000, cycle = 60/bpm, pos = t mod cycle; the TA lobe exp(-pos/0.03)
for pos < 0.08, else the DAM lobe 0.6 * exp(-(pos - 0.25*cycle)/0.02) for
0.25*cycle <= pos < 0.25*cycle + 0.06, else 0.  The function has no phase
accumulator: every block restarts at sample index 0. -/
noncomputable def heartbeatEnvSample (bpm : ℤ) (i : ℕ) : ℝ :=
  let t := (i : ℝ) * (1 / 48000)
  let cycle := 60 / (bpm : ℝ)
  let pos := pymod t cycle
  if pos < 0.08 then Real.exp (-pos / 0.03)
  else if 0.25 * cycle ≤ pos ∧ pos < 0.25 * cycle + 0.06 then
    0.6 * Real.exp (-(pos - 0.25 * cycle) / 0.02)
  else 0

lemma pymod_zero_left (b : ℝ) : pymod 0 b = 0 := by
  unfold pymod
  simp

lemma heartbeatEnv_TA (bpm : ℤ) (i : ℕ)
    (h : pymod ((i : ℝ) * (1 / 48000)) (60 / (bpm : ℝ)) < 0.08) :
    heartbeatEnvSample bpm i =
      Real.exp (-(pymod ((i : ℝ) * (1 / 48000)) (60 / (bpm : ℝ))) / 0.03) := by
  simp only [heartbeatEnvSample]
  rw [if_pos h]

lemma heartbeatEnv_DAM (bpm : ℤ) (i : ℕ)
    (h1 : ¬ pymod ((i : ℝ) * (1 / 48000)) (60 / (bpm : ℝ)) < 0.08)
    (h2 : 0.25 * (60 / (bpm : ℝ)) ≤ pymod ((i : ℝ) * (1 / 48000)) (60 / (bpm : ℝ)))
    (h3 : pymod ((i : ℝ) * (1 / 48000)) (60 / (bpm : ℝ)) <
      0.25 * (60 / (bpm : ℝ)) + 0.06) :
    heartbeatEnvSample bpm i =
      0.6 * Real.exp (-(pymod ((i : ℝ) * (1 / 48000)) (60 / (bpm : ℝ)) -
        0.25 * (60 / (bpm : ℝ))) / 0.02) := by
  simp only [heartbeatEnvSample]
  rw [if_neg h1, if_pos ⟨h2, h3⟩]

lemma heartbeatEnv_rest (bpm : ℤ) (i : ℕ)
    (h1 : ¬ pymod ((i : ℝ) * (1 / 48000)) (60 / (bpm : ℝ)) < 0.08)
    (h2 : ¬ (0.25 * (60 / (bpm : ℝ)) ≤
        pymod ((i : ℝ) * (1 / 48000)) (60 / (bpm : ℝ)) ∧
      pymod ((i : ℝ) * (1 / 48000)) (60 / (bpm : ℝ)) <
        0.25 * (60 / (bpm : ℝ)) + 0.06)) :
    heartbeatEnvSample bpm i = 0 := by
  simp only [heartbeatEnvSample]
  rw [if_neg h1, if_neg h2]

/-- Counterexample to C2 as stated: in heartbeat mode with modSpeed 100
(f_m = 10, bpm = int(600) = 600), the envelope value predicted from
continuing block n past its 1200th sample is exp(-(1/40)/0.03), but the first
sample of block n+1 is heartbeatEnvSample 600 0 = 1, because
_generate_heartbeat_env restarts every block at t = 0; the jump exceeds
5/11, far above 1e-5. -/
theorem heartbeat_block_discontinuity :
    ¬ |heartbeatEnvSample (heartbeatBpm (modFreq 100)) 0 -
        heartbeatEnvSample (heartbeatBpm (modFreq 100)) 1200| < 1/100000 := by
  have hmf : modFreq 100 = 10 := by
    unfold modFreq
    rw [show ((100 : ℝ) - 1) / 99 = 1 by norm_num, Real.rpow_one]
    norm_num
  have hbpm : heartbeatBpm (modFreq 100) = 600 := by
    rw [hmf]
    unfold heartbeatBpm pytrunc
    rw [if_pos (by norm_num)]
    rw [show (10 : ℝ) * 60 = 600 by norm_num]
    norm_num
  rw [hbpm]
  have h0 : heartbeatEnvSample 600 0 = 1 := by
    have hp : pymod (((0 : ℕ) : ℝ) * (1 / 48000)) (60 / ((600 : ℤ) : ℝ)) = 0 := by
      rw [show (((0 : ℕ) : ℝ) * (1 / 48000)) = 0 by norm_num]
      exact pymod_zero_left _
    rw [heartbeatEnv_TA 600 0 (by rw [hp]; norm_num), hp]
    norm_num
  have h1 : heartbeatEnvSample 600 1200 = Real.exp (-(1 / 40 : ℝ) / 0.03) := by
    have hp : pymod (((1200 : ℕ) : ℝ) * (1 / 48000)) (60 / ((600 : ℤ) : ℝ)) =
        1 / 40 := by
      unfold pymod
      push_cast
      rw [show (1200 : ℝ) * (1 / 48000) = 1 / 40 by norm_num,
        show (60 : ℝ) / 600 = 1 / 10 by norm_num,
        show (1 / 40 : ℝ) / (1 / 10) = 1 / 4 by norm_num]
      norm_num
    rw [heartbeatEnv_TA 600 1200 (by rw [hp]; norm_num), hp]
  have he : Real.exp (-(1 / 40 : ℝ) / 0.03) ≤ 6 / 11 := by
    rw [show (-(1 / 40 : ℝ)) / 0.03 = -(5 / 6) by norm_num]
    rw [Real.exp_neg]
    have h4 : (11 / 6 : ℝ) ≤ Real.exp (5 / 6) := by
      have := Real.add_one_le_exp (5 / 6 : ℝ)
      linarith
    have h5 := inv_anti₀ (show (0 : ℝ) < 11 / 6 by norm_num) h4
    rw [show ((11 / 6 : ℝ))⁻¹ = 6 / 11 by norm_num] at h5
    exact h5
  have hepos : (0 : ℝ) ≤ Real.exp (-(1 / 40 : ℝ) / 0.03) :=
    le_of_lt (Real.exp_pos _)
  intro hcontra
  rw [h0, h1, abs_of_nonneg (by linarith)] at hcontra
  linarith

/-- Counterexample to C4 as stated: at mod_speed_step 1 the modulator frequency
is exactly 0.03 Hz, f_m * 60 = 1.8, and the code computes bpm = int(1.8) = 1
while the claim's round(1.8) = 2. -/
theorem heartbeat_bpm_not_round :
    ¬ heartbeatBpm (modFreq 1) = round (modFreq 1 * 60) := by
  have hmf : modFreq 1 = 0.03 := by
    unfold modFreq
    rw [show ((1 : ℝ) - 1) / 99 = 0 by norm_num, Real.rpow_zero]
    norm_num
  rw [hmf]
  have h1 : heartbeatBpm (0.03 : ℝ) = 1 := by
    unfold heartbeatBpm pytrunc
    rw [if_pos (by norm_num)]
    rw [show (0.03 : ℝ) * 60 = 1.8 by norm_num]
    norm_num
  have h2 : round ((0.03 : ℝ) * 60) = 2 := by
    rw [show (0.03 : ℝ) * 60 = 1.8 by norm_num, round_eq]
    norm_num
  rw [h1, h2]
  decide

/-- C4 (amended): the heartbeat BPM is the truncation int(f_m * 60), that is
the floor of f_m * 60 (not its rounding); within each cycle C = 60/BPM the
envelope at position p equals exp(-p/0.03) for p < 0.08, equals
0.6 * exp(-(p - 0.25*C)/0.02) for 0.25*C <= p < 0.25*C + 0.06 when also
p >= 0.08 (the TA branch takes precedence where the lobes overlap), and equals
0 otherwise. -/
theorem heartbeat_bpm_and_env (stepv : ℝ) (bpm : ℤ) (i : ℕ) :
    heartbeatBpm (modFreq stepv) = ⌊modFreq stepv * 60⌋ ∧
    (pymod ((i : ℝ) * (1 / 48000)) (60 / (bpm : ℝ)) < 0.08 →
      heartbeatEnvSample bpm i =
        Real.exp (-(pymod ((i : ℝ) * (1 / 48000)) (60 / (bpm : ℝ))) / 0.03)) ∧
    (¬ pymod ((i : ℝ) * (1 / 48000)) (60 / (bpm : ℝ)) < 0.08 →
      0.25 * (60 / (bpm : ℝ)) ≤ pymod ((i : ℝ) * (1 / 48000)) (60 / (bpm : ℝ)) →
      pymod ((i : ℝ) * (1 / 48000)) (60 / (bpm : ℝ)) <
        0.25 * (60 / (bpm : ℝ)) + 0.06 →
      heartbeatEnvSample bpm i =
        0.6 * Real.exp (-(pymod ((i : ℝ) * (1 / 48000)) (60 / (bpm : ℝ)) -
          0.25 * (60 / (bpm : ℝ))) / 0.02)) ∧
    (¬ pymod ((i : ℝ) * (1 / 48000)) (60 / (bpm : ℝ)) < 0.08 →
      ¬ (0.25 * (60 / (bpm : ℝ)) ≤
          pymod ((i : ℝ) * (1 / 48000)) (60 / (bpm : ℝ)) ∧
        pymod ((i : ℝ) * (1 / 48000)) (60 / (bpm : ℝ)) <
          0.25 * (60 / (bpm : ℝ)) + 0.06) →
      heartbeatEnvSample bpm i = 0) := by
  refine ⟨?_, heartbeatEnv_TA bpm i, heartbeatEnv_DAM bpm i, heartbeatEnv_rest bpm i⟩
  have hpos : (0 : ℝ) ≤ modFreq stepv * 60 := by
    unfold modFreq
    positivity
  unfold heartbeatBpm pytrunc
  rw [if_pos hpos]

/-- Witness for C4 at bpm 1, sample 0: the position is 0, inside the TA lobe,
and the BPM identity instantiated at step 1. -/
theorem heartbeat_bpm_and_env_witness :
    heartbeatBpm (modFreq 1) = ⌊modFreq 1 * 60⌋ ∧
    heartbeatEnvSample 1 0 =
      Real.exp (-(pymod (((0 : ℕ) : ℝ) * (1 / 48000)) (60 / ((1 : ℤ) : ℝ))) / 0.03) :=
  ⟨(heartbeat_bpm_and_env 1 1 0).1,
   (heartbeat_bpm_and_env 1 1 0).2.1 (by
     rw [show (((0 : ℕ) : ℝ) * (1 / 48000)) = 0 by norm_num, pymod_zero_left]
     norm_num)⟩

/-- The burst length at ws_audio.py line 365: max(1, round(phase/22.5)). -/
noncomputable def burstLen (phase : ℝ) : ℤ := max 1 (round (phase / 22.5))

/-- One sample of the drum envelope (_generate_drum_env, ws_audio.py lines
250-269).  phi0 is the block-start accumulator; t = i/48000;
period = 1/max(mod_freq, 0.1); phi = phi0 + t; beat_time = phi mod period;
beat_index = floor(phi/period); inside a burst (beat_index mod
(burst_len + burst_gap) below burst_len) the envelope ramps as
beat_time/attack while beat_time < attack and decays as
exp(-(beat_time - attack)/(decay/5)) after; silent periods give 0. -/
noncomputable def drumEnvSample (phi0 mf attack decay : ℝ) (burst_len burst_gap : ℤ)
    (i : ℕ) : ℝ :=
  let t := (i : ℝ) * (1 / 48000)
  let period := 1 / max mf 0.1
  let phi := phi0 + t
  let beat_time := pymod phi period
  let beat_index : ℤ := ⌊phi / period⌋
  if beat_index % (burst_len + burst_gap) < burst_len then
    (if beat_time < attack then beat_time / attack
     else Real.exp (-(beat_time - attack) / (decay / 5)))
  else 0

/-- The drum envelope as _generate_therapy_audio invokes it (ws_audio.py lines
407-413): mode 8 with attack 0.005 s and decay 0.100 s, mode 9 with attack
0.015 s and decay 0.400 s, both with burst_len = max(1, round(phase/22.5))
and burst_gap = 1. -/
noncomputable def modeDrumEnv (mode : ℕ) (phase phi0 mf : ℝ) (i : ℕ) : ℝ :=
  if mode = 8 then drumEnvSample phi0 mf 0.005 0.100 (burstLen phase) 1 i
  else drumEnvSample phi0 mf 0.015 0.400 (burstLen phase) 1 i

/-- Modelled from the spec's words, for comparison with drumEnvSample: the
drum envelope with period exactly 1/f_m, no lower clamp on the modulator
frequency; otherwise identical. -/
noncomputable def specDrumEnvSample (phi0 mf attack decay : ℝ)
    (burst_len burst_gap : ℤ) (i : ℕ) : ℝ :=
  let t := (i : ℝ) * (1 / 48000)
  let period := 1 / mf
  let phi := phi0 + t
  let beat_time := pymod phi period
  let beat_index : ℤ := ⌊phi / period⌋
  if beat_index % (burst_len + burst_gap) < burst_len then
    (if beat_time < attack then beat_time / attack
     else Real.exp (-(beat_time - attack) / (decay / 5)))
  else 0

lemma drumEnv_attack (phi0 mf attack decay : ℝ) (L G : ℤ) (i : ℕ)
    (hb : ⌊(phi0 + (i : ℝ) * (1 / 48000)) / (1 / max mf 0.1)⌋ % (L + G) < L)
    (ht : pymod (phi0 + (i : ℝ) * (1 / 48000)) (1 / max mf 0.1) < attack) :
    drumEnvSample phi0 mf attack decay L G i =
      pymod (phi0 + (i : ℝ) * (1 / 48000)) (1 / max mf 0.1) / attack := by
  simp only [drumEnvSample]
  rw [if_pos hb, if_pos ht]

lemma drumEnv_decay (phi0 mf attack decay : ℝ) (L G : ℤ) (i : ℕ)
    (hb : ⌊(phi0 + (i : ℝ) * (1 / 48000)) / (1 / max mf 0.1)⌋ % (L + G) < L)
    (ht : ¬ pymod (phi0 + (i : ℝ) * (1 / 48000)) (1 / max mf 0.1) < attack) :
    drumEnvSample phi0 mf attack decay L G i =
      Real.exp (-(pymod (phi0 + (i : ℝ) * (1 / 48000)) (1 / max mf 0.1) - attack) /
        (decay / 5)) := by
  simp only [drumEnvSample]
  rw [if_pos hb, if_neg ht]

lemma drumEnv_silent (phi0 mf attack decay : ℝ) (L G : ℤ) (i : ℕ)
    (hb : ¬ ⌊(phi0 + (i : ℝ) * (1 / 48000)) / (1 / max mf 0.1)⌋ % (L + G) < L) :
    drumEnvSample phi0 mf attack decay L G i = 0 := by
  simp only [drumEnvSample]
  rw [if_neg hb]

/-- Counterexample to C5 as stated: at the modulator frequency of step 1,
f_m = 0.03 Hz, the code's period is 1/max(0.03, 0.1) = 10 s, not
1/f_m = 100/3 s.  At sample 480000 (t = 10 s, with phi0 = 0, mode-8
parameters and burst 1+1) the code is in its silent period and emits 0, while
the envelope built from the spec's period is in an active period and emits a
strictly positive decay value. -/
theorem drum_period_not_unclamped :
    ¬ drumEnvSample 0 (modFreq 1) 0.005 0.100 1 1 480000 =
        specDrumEnvSample 0 (modFreq 1) 0.005 0.100 1 1 480000 := by
  have hmf : modFreq 1 = 0.03 := by
    unfold modFreq
    rw [show ((1 : ℝ) - 1) / 99 = 0 by norm_num, Real.rpow_zero]
    norm_num
  rw [hmf]
  have hphi : ((0 : ℝ) + ((480000 : ℕ) : ℝ) * (1 / 48000)) = 10 := by
    push_cast
    norm_num
  have hmax : max (0.03 : ℝ) 0.1 = 0.1 := max_eq_right (by norm_num)
  have hcode : drumEnvSample 0 0.03 0.005 0.100 1 1 480000 = 0 := by
    apply drumEnv_silent
    rw [hphi, hmax]
    rw [show (10 : ℝ) / (1 / 0.1) = 1 by norm_num]
    norm_num
  have hspec : 0 < specDrumEnvSample 0 0.03 0.005 0.100 1 1 480000 := by
    simp only [specDrumEnvSample]
    rw [hphi]
    have hidx : ⌊(10 : ℝ) / (1 / 0.03)⌋ = 0 := by
      rw [show (10 : ℝ) / (1 / 0.03) = 0.3 by norm_num]
      norm_num
    have hpm : pymod (10 : ℝ) (1 / 0.03) = 10 := by
      unfold pymod
      rw [hidx]
      norm_num
    rw [if_pos (show ⌊(10 : ℝ) / (1 / 0.03)⌋ % (1 + 1) < 1 by rw [hidx]; decide)]
    rw [if_neg (show ¬ pymod (10 : ℝ) (1 / 0.03) < 0.005 by rw [hpm]; norm_num)]
    exact Real.exp_pos _
  intro h
  rw [h] at hcode
  exact absurd hcode (ne_of_gt hspec)

/-- C5 (amended): the drum envelope has period T = 1/max(f_m, 0.1) (the code
clamps the modulator frequency below at 0.1 Hz for the period computation;
1/f_m only when f_m >= 0.1); within each active period at position p it equals
p/attack for p < attack and exp(-(p - attack)/(decay/5)) afterwards, with
attack 5 ms and decay 100 ms in mode 8 and attack 15 ms and decay 400 ms in
mode 9; periods are grouped into bursts of max(1, round(phase/22.5)) active
periods followed by exactly one silent period, in which the envelope is 0. -/
theorem drum_env_characterization (phi0 mf attack decay phase : ℝ) (L G : ℤ)
    (i : ℕ) :
    (⌊(phi0 + (i : ℝ) * (1 / 48000)) / (1 / max mf 0.1)⌋ % (L + G) < L →
      pymod (phi0 + (i : ℝ) * (1 / 48000)) (1 / max mf 0.1) < attack →
      drumEnvSample phi0 mf attack decay L G i =
        pymod (phi0 + (i : ℝ) * (1 / 48000)) (1 / max mf 0.1) / attack) ∧
    (⌊(phi0 + (i : ℝ) * (1 / 48000)) / (1 / max mf 0.1)⌋ % (L + G) < L →
      ¬ pymod (phi0 + (i : ℝ) * (1 / 48000)) (1 / max mf 0.1) < attack →
      drumEnvSample phi0 mf attack decay L G i =
        Real.exp (-(pymod (phi0 + (i : ℝ) * (1 / 48000)) (1 / max mf 0.1) -
          attack) / (decay / 5))) ∧
    (¬ ⌊(phi0 + (i : ℝ) * (1 / 48000)) / (1 / max mf 0.1)⌋ % (L + G) < L →
      drumEnvSample phi0 mf attack decay L G i = 0) ∧
    modeDrumEnv 8 phase phi0 mf i =
      drumEnvSample phi0 mf 0.005 0.100 (max 1 (round (phase / 22.5))) 1 i ∧
    modeDrumEnv 9 phase phi0 mf i =
      drumEnvSample phi0 mf 0.015 0.400 (max 1 (round (phase / 22.5))) 1 i := by
  refine ⟨drumEnv_attack phi0 mf attack decay L G i,
    drumEnv_decay phi0 mf attack decay L G i,
    drumEnv_silent phi0 mf attack decay L G i, ?_, ?_⟩
  · unfold modeDrumEnv burstLen
    rw [if_pos rfl]
  · unfold modeDrumEnv burstLen
    rw [if_neg (by norm_num)]

/-- Witness for C5 at phi0 0, f_m 0.03, mode-8 parameters, burst 1+1, sample
0: the beat index is 0 (active) and the position 0 is inside the attack ramp,
plus the mode-8 dispatch identity at phase 0. -/
theorem drum_env_characterization_witness :
    drumEnvSample 0 0.03 0.005 0.100 1 1 0 =
      pymod ((0 : ℝ) + ((0 : ℕ) : ℝ) * (1 / 48000)) (1 / max (0.03 : ℝ) 0.1) /
        0.005 ∧
    modeDrumEnv 8 0 0 0.03 0 =
      drumEnvSample 0 0.03 0.005 0.100 (max 1 (round ((0 : ℝ) / 22.5))) 1 0 :=
  ⟨(drum_env_characterization 0 0.03 0.005 0.100 0 1 1 0).1
      (by
        rw [show ((0 : ℝ) + ((0 : ℕ) : ℝ) * (1 / 48000)) = 0 by norm_num,
          zero_div]
        norm_num)
      (by
        rw [show ((0 : ℝ) + ((0 : ℕ) : ℝ) * (1 / 48000)) = 0 by norm_num,
          pymod_zero_left]
        norm_num),
   (drum_env_characterization 0 0.03 0.005 0.100 0 1 1 0).2.2.2.1⟩

/-- The mix angle computed by handle_set_mix (ws_audio.py lines 1746-1752):
the slider value is clamped to [0, 100] and
theta = math.radians(90.0 * (x/100.0)) = pi * x / 200. -/
noncomputable def setMixTheta (x : ℤ) : ℝ :=
  (Real.pi / 180) * (90 * ((max 0 (min 100 x) : ℤ) : ℝ) / 100)

/-- The music gain installed by handle_set_mix (lines 1753-1757): cos(theta)
rounded to four decimal places (round(g_music_amp, 4)) before being stored as
bt_gain. -/
noncomputable def gMusicInstalled (x : ℤ) : ℝ :=
  ((round (Real.cos (setMixTheta x) * 10000) : ℤ) : ℝ) / 10000

/-- The therapy gain installed by handle_set_mix (lines 1754, 1758):
sin(theta), stored unrounded as therapy_gain. -/
noncomputable def gTherapyInstalled (x : ℤ) : ℝ := Real.sin (setMixTheta x)

/-- Counterexample to C1 as stated: at slider value 1 the installed music gain
is round(cos(pi/200), 4) = 0.9999 while cos(pi/200) is about 0.99987663, so
the installed pair misses the Pythagorean identity by about 4.7e-5, beyond
the claimed 1e-6. -/
theorem set_mix_not_within_1e6 :
    ¬ |gMusicInstalled 1 ^ 2 + gTherapyInstalled 1 ^ 2 - 1| ≤ 1 / 1000000 := by
  have hθ : setMixTheta 1 = Real.pi / 200 := by
    unfold setMixTheta
    rw [show max 0 (min 100 (1 : ℤ)) = 1 by norm_num]
    push_cast
    ring
  have hπl : 3.141592 < Real.pi := Real.pi_gt_d6
  have hπu : Real.pi < 3.141593 := Real.pi_lt_d6
  set θ : ℝ := Real.pi / 200 with hθdef
  have hθl : 0.01570796 < θ := by rw [hθdef]; linarith
  have hθu : θ < 0.015707965 := by rw [hθdef]; linarith
  have hθpos : 0 < θ := by linarith
  have habs : |θ| ≤ 1 := by rw [abs_of_pos hθpos]; linarith
  have hcb := Real.cos_bound habs
  rw [abs_of_pos hθpos] at hcb
  rw [abs_le] at hcb
  have hθ2l : (0.0002467399 : ℝ) < θ ^ 2 := by nlinarith
  have hθ2u : θ ^ 2 < 0.0002467403 := by nlinarith
  have hθ4u : θ ^ 4 < 0.00000007 := by nlinarith [sq_nonneg θ, sq_nonneg (θ ^ 2)]
  have hθ4l : 0 ≤ θ ^ 4 := by positivity
  have hcu : Real.cos θ ≤ 0.99987664 := by nlinarith [hcb.2]
  have hcl : (0.99987662 : ℝ) ≤ Real.cos θ := by nlinarith [hcb.1]
  have hr : round (Real.cos θ * 10000) = 9999 := by
    rw [round_eq]
    rw [Int.floor_eq_iff]
    constructor
    · push_cast
      linarith
    · push_cast
      linarith
  have hgm : gMusicInstalled 1 = 9999 / 10000 := by
    unfold gMusicInstalled
    rw [hθ, hr]
    norm_num
  have hgt : gTherapyInstalled 1 ^ 2 = 1 - Real.cos θ ^ 2 := by
    unfold gTherapyInstalled
    rw [hθ]
    nlinarith [Real.sin_sq_add_cos_sq θ]
  intro hcontra
  rw [hgm, hgt] at hcontra
  rw [abs_le] at hcontra
  have hc0 : (0 : ℝ) ≤ Real.cos θ := by linarith
  have hcsq : Real.cos θ ^ 2 ≤ 0.99987664 ^ 2 :=
    pow_le_pow_left₀ hc0 hcu 2
  have h2 := hcontra.2
  linarith

/-- C1 (amended): the pair of gains installed by set-mix is
(round(cos(theta), 4), sin(theta)) with theta = (pi/2)*(x/100) on the clamped
slider; because the music gain is rounded to four decimal places before
installation, the installed pair satisfies the equal-power identity only to
within 2e-4 (the unrounded pair satisfies it exactly); the tolerance 2e-4
holds for every integer slider value. -/
theorem set_mix_equal_power (x : ℤ) :
    |gMusicInstalled x ^ 2 + gTherapyInstalled x ^ 2 - 1| ≤ 2 / 10000 := by
  set θ := setMixTheta x with hθ
  set c := Real.cos θ with hc
  set r := ((round (c * 10000) : ℤ) : ℝ) with hrdef
  have hround := abs_sub_round (c * 10000)
  rw [abs_le] at hround
  have hc1 : |c| ≤ 1 := Real.abs_cos_le_one θ
  rw [abs_le] at hc1
  have hu1 : r / 10000 - c ≤ 1 / 20000 := by
    have := hround.1
    rw [← hrdef] at this
    linarith
  have hu2 : -(1 / 20000) ≤ r / 10000 - c := by
    have := hround.2
    rw [← hrdef] at this
    linarith
  have hX : gMusicInstalled x ^ 2 + gTherapyInstalled x ^ 2 - 1 =
      (r / 10000) ^ 2 - c ^ 2 := by
    have hs := Real.sin_sq_add_cos_sq θ
    unfold gMusicInstalled gTherapyInstalled
    rw [← hθ, ← hc, ← hrdef]
    nlinarith [hs]
  have hkey : (r / 10000) ^ 2 - c ^ 2 = (r / 10000 - c) * (r / 10000 + c) := by
    ring
  have habs1 : |r / 10000 - c| ≤ 1 / 20000 := abs_le.2 ⟨hu2, hu1⟩
  have habs2 : |r / 10000 + c| ≤ 2 + 1 / 20000 :=
    abs_le.2 ⟨by linarith [hu2, hc1.1], by linarith [hu1, hc1.2]⟩
  rw [hX, hkey, abs_mul]
  calc |r / 10000 - c| * |r / 10000 + c|
      ≤ (1 / 20000) * (2 + 1 / 20000) :=
        mul_le_mul habs1 habs2 (abs_nonneg _) (by norm_num)
    _ ≤ 2 / 10000 := by norm_num
